import Mathlib

/-!
Shallow embedding of the signing-service repository
(marcellribeiro/signing-service-challenge-go).

The embedding covers the domain package (Device, NewDevice,
GetSecuredDataToSign, IncrementCounter, key getters), the persistence
package (InMemoryRepository Create/Get/List/Update), the api package
handlers (CreateDevice, GetDevice, ListDevices, SignTransaction), and an
interleaving model of the two mutex-protected critical sections that one
SignTransaction call performs on a device.

Go byte strings are `List Nat` (each entry a byte value), Go strings are
Lean `String`, the Go `int` signature counter is `Nat` (it is only ever
incremented starting from 0). The randomized cryptographic signers are
modelled by passing the outcome of the one `Sign` call (the produced
signature bytes, or failure) as an explicit argument.
-/

namespace SigningService

/-- Algorithm tags: Go `domain.SignatureAlgorithm` is a string type. -/
abbrev SignatureAlgorithm := String

/-- Go constant `domain.AlgorithmRSA`. -/
def AlgorithmRSA : SignatureAlgorithm := "RSA"

/-- Go constant `domain.AlgorithmECDSA`. -/
def AlgorithmECDSA : SignatureAlgorithm := "ECDSA"

/-- Private key material. Go stores `interface value` that can hold a
concrete `rsa.PrivateKey` or `ecdsa.PrivateKey` pointer; each concrete key
type is a tagged constructor with an abstract payload. -/
inductive PrivateKeyVal where
  | rsa (key : Nat) : PrivateKeyVal
  | ecdsa (key : Nat) : PrivateKeyVal
deriving DecidableEq, Repr

/-- Public key material, tagged like `PrivateKeyVal`. -/
inductive PublicKeyVal where
  | rsa (key : Nat) : PublicKeyVal
  | ecdsa (key : Nat) : PublicKeyVal
deriving DecidableEq, Repr

/-- Device record (domain/device.go). The `sync.Mutex` field has no data
content; the locking discipline is modelled by the interleaving semantics
further below. -/
structure Device where
  ID : String
  Algorithm : SignatureAlgorithm
  Label : String
  SignatureCounter : Nat
  PublicKey : PublicKeyVal
  PrivateKey : PrivateKeyVal
  LastSignature : String
deriving DecidableEq, Repr

/-- Standard base64 alphabet, as used by Go `base64.StdEncoding`. -/
def base64Alphabet : String :=
  "ABCDEFGHIJKLMNOPQRSTUVWXYZabcdefghijklmnopqrstuvwxyz0123456789+/"

/-- Character for a 6-bit group; the `=` default is only reached out of
range and is also the padding character. -/
def b64Char (n : Nat) : Char := base64Alphabet.toList.getD n '='

/-- Base64 encoding with padding of a byte list, as Go
`base64.StdEncoding.EncodeToString`. Each byte is split into 6-bit groups:
for bytes `a b c` the groups are `a >>> 2`, `(a &&& 3) <<< 4 ||| b >>> 4`,
`(b &&& 15) <<< 2 ||| c >>> 6`, `c &&& 63`, written with `/ %` below. -/
def base64EncodeBytes : List Nat → String
  | [] => ""
  | [a] => String.mk [b64Char (a / 4 % 64), b64Char (a % 4 * 16), '=', '=']
  | [a, b] =>
      String.mk [b64Char (a / 4 % 64), b64Char (a % 4 * 16 + b / 16 % 16),
        b64Char (b % 16 * 4), '=']
  | a :: b :: c :: rest =>
      String.mk [b64Char (a / 4 % 64), b64Char (a % 4 * 16 + b / 16 % 16),
        b64Char (b % 16 * 4 + c / 64 % 4), b64Char (c % 64)] ++
        base64EncodeBytes rest

/-- UTF-8 bytes of one character, as Go's `[]byte(string)` conversion
produces for each rune. -/
def utf8EncodeChar (c : Char) : List Nat :=
  let n := c.toNat
  if n < 128 then [n]
  else if n < 2048 then [192 + n / 64, 128 + n % 64]
  else if n < 65536 then [224 + n / 4096, 128 + n / 64 % 64, 128 + n % 64]
  else [240 + n / 262144, 128 + n / 4096 % 64, 128 + n / 64 % 64, 128 + n % 64]

/-- Byte content of a Go string (UTF-8). -/
def stringBytes (s : String) : List Nat := (s.data.map utf8EncodeChar).flatten

/-- Go `base64.StdEncoding.EncodeToString([]byte(s))`. -/
def base64String (s : String) : String := base64EncodeBytes (stringBytes s)

/-- NewDevice (domain/device_methods.go): a fresh device with counter 0 and
empty last signature. -/
def NewDevice (id : String) (algorithm : SignatureAlgorithm) (label : String)
    (publicKey : PublicKeyVal) (privateKey : PrivateKeyVal) : Device :=
  { ID := id, Algorithm := algorithm, Label := label, SignatureCounter := 0,
    PublicKey := publicKey, PrivateKey := privateKey, LastSignature := "" }

/-- GetSecuredDataToSign (domain/device_methods.go): builds
`counter ++ "_" ++ data ++ "_" ++ lastSig`, substituting the base64 of the
device id when the last signature is empty. The Go method only reads the
device under its mutex; the returned second component is the device state
after the call, making that read-only behaviour part of the embedding. -/
def GetSecuredDataToSign (d : Device) (dataToBeSigned : String) :
    String × Device :=
  let lastSig := d.LastSignature
  let lastSig := if lastSig = "" then base64String d.ID else lastSig
  (Nat.repr d.SignatureCounter ++ "_" ++ dataToBeSigned ++ "_" ++ lastSig, d)

/-- IncrementCounter (domain/device_methods.go): increment the counter and
store the new last signature, under the device mutex. -/
def IncrementCounter (d : Device) (newSignature : String) : Device :=
  { d with SignatureCounter := d.SignatureCounter + 1,
           LastSignature := newSignature }

/-- GetRSAPrivateKey (domain/device_methods.go): the algorithm must be RSA
and the stored key must have the RSA concrete type. -/
def GetRSAPrivateKey (d : Device) : Except String Nat :=
  if d.Algorithm ≠ AlgorithmRSA then
    Except.error "device algorithm is not RSA"
  else
    match d.PrivateKey with
    | PrivateKeyVal.rsa key => Except.ok key
    | _ => Except.error "private key is not of type rsa.PrivateKey"

/-- GetECDSAPrivateKey (domain/device_methods.go). -/
def GetECDSAPrivateKey (d : Device) : Except String Nat :=
  if d.Algorithm ≠ AlgorithmECDSA then
    Except.error "device algorithm is not ECDSA"
  else
    match d.PrivateKey with
    | PrivateKeyVal.ecdsa key => Except.ok key
    | _ => Except.error "private key is not of type ecdsa.PrivateKey"

/-- Store errors (persistence/inmemory.go): `ErrDeviceNotFound` and
`ErrDeviceAlreadyExists`. -/
inductive StoreError where
  | deviceNotFound
  | deviceAlreadyExists
deriving DecidableEq, Repr

/-- Device map contents of `InMemoryRepository`, as an association list
keyed by device id. -/
abbrev Repo := List (String × Device)

/-- Lookup in the device map, the `r.devices[id]` read. -/
def repoLookup : Repo → String → Option Device
  | [], _ => none
  | (k, v) :: rest, id => if k = id then some v else repoLookup rest id

/-- Replacement of the entry under `d.ID` by `d`, the write
`r.devices[device.ID] = device`. -/
def repoReplace : Repo → Device → Repo
  | [], _ => []
  | (k, v) :: rest, d =>
    if k = d.ID then (d.ID, d) :: repoReplace rest d
    else (k, v) :: repoReplace rest d

/-- Create (persistence/inmemory.go): fails when the id is already mapped,
stores the device otherwise. -/
def repoCreate (r : Repo) (device : Device) : Except StoreError Repo :=
  if (repoLookup r device.ID).isSome then
    Except.error StoreError.deviceAlreadyExists
  else
    Except.ok ((device.ID, device) :: r)

/-- Get (persistence/inmemory.go): fails when the id is not mapped. -/
def repoGet (r : Repo) (id : String) : Except StoreError Device :=
  match repoLookup r id with
  | some device => Except.ok device
  | none => Except.error StoreError.deviceNotFound

/-- List (persistence/inmemory.go): all stored devices. -/
def repoList (r : Repo) : List Device := r.map Prod.snd

/-- Update (persistence/inmemory.go): fails when the id is not mapped,
replaces the stored device otherwise. -/
def repoUpdate (r : Repo) (device : Device) : Except StoreError Repo :=
  if (repoLookup r device.ID).isSome then
    Except.ok (repoReplace r device)
  else
    Except.error StoreError.deviceNotFound

/-- Device view returned by the handlers: `CreateDeviceResponse`
(api/device.go) with exactly the fields id, algorithm, label and
signature counter. -/
structure DeviceView where
  ID : String
  Algorithm : SignatureAlgorithm
  Label : String
  SignatureCounter : Nat
deriving DecidableEq, Repr

/-- Projection of a device to the response view built in CreateDevice,
ListDevices and GetDevice (api/device.go). -/
def deviceView (d : Device) : DeviceView :=
  { ID := d.ID, Algorithm := d.Algorithm, Label := d.Label,
    SignatureCounter := d.SignatureCounter }

/-- SignatureResponse (domain/device.go). -/
structure SignatureResponse where
  Signature : String
  SignedData : String
deriving DecidableEq, Repr

/-- Error outcomes of the api handlers, one constructor per distinct error
reply path in api/device.go. -/
inductive ApiError where
  | unsupportedAlgorithm
  | keyGenerationFailure
  | alreadyExists
  | notFound
  | keyTypeMismatch
  | signingFailure
  | updateFailed
deriving DecidableEq, Repr

/-- CreateDevice handler (api/device.go). The uuid produced for an empty
request id and the outcome of the key generator (a fresh pair, or failure)
are passed as explicit arguments. -/
def createDevice (r : Repo) (reqID : String) (algorithm : SignatureAlgorithm)
    (label : String) (freshID : String)
    (keygen : Option (PublicKeyVal × PrivateKeyVal)) :
    Except ApiError (DeviceView × Repo) :=
  if algorithm ≠ AlgorithmRSA ∧ algorithm ≠ AlgorithmECDSA then
    Except.error ApiError.unsupportedAlgorithm
  else
    let deviceID := if reqID = "" then freshID else reqID
    match keygen with
    | none => Except.error ApiError.keyGenerationFailure
    | some (publicKey, privateKey) =>
      let device := NewDevice deviceID algorithm label publicKey privateKey
      match repoCreate r device with
      | Except.error _ => Except.error ApiError.alreadyExists
      | Except.ok r2 => Except.ok (deviceView device, r2)

/-- GetDevice handler (api/device.go). -/
def getDevice (r : Repo) (id : String) : Except ApiError DeviceView :=
  match repoGet r id with
  | Except.error _ => Except.error ApiError.notFound
  | Except.ok device => Except.ok (deviceView device)

/-- ListDevices handler (api/device.go). -/
def listDevices (r : Repo) : List DeviceView := (repoList r).map deviceView

/-- Mirror of the signer-construction step of SignTransaction
(api/device.go): the RSA branch fetches the RSA private key, every other
algorithm goes through the ECDSA branch. -/
def privateKeyLookupOk (d : Device) : Bool :=
  if d.Algorithm = AlgorithmRSA then
    match GetRSAPrivateKey d with
    | Except.ok _ => true
    | Except.error _ => false
  else
    match GetECDSAPrivateKey d with
    | Except.ok _ => true
    | Except.error _ => false

/-- SignTransaction handler (api/device.go), sequential semantics. The
randomized `signer.Sign` call is modelled by its outcome `signOutcome`
(the signature bytes, or `none` for a failed cryptographic operation).
The repository state is returned on every path, error paths leaving it
untouched exactly as the Go handler returns before any mutation. -/
def signTransaction (r : Repo) (id : String) (data : String)
    (signOutcome : Option (List Nat)) :
    Except ApiError SignatureResponse × Repo :=
  match repoGet r id with
  | Except.error _ => (Except.error ApiError.notFound, r)
  | Except.ok device =>
    let (securedData, device) := GetSecuredDataToSign device data
    if privateKeyLookupOk device then
      match signOutcome with
      | none => (Except.error ApiError.signingFailure, r)
      | some signature =>
        let signatureBase64 := base64EncodeBytes signature
        let device2 := IncrementCounter device signatureBase64
        match repoUpdate r device2 with
        | Except.error _ => (Except.error ApiError.updateFailed, r)
        | Except.ok r2 =>
          (Except.ok { Signature := signatureBase64,
                       SignedData := securedData }, r2)
    else
      (Except.error ApiError.keyTypeMismatch, r)

/-- Sequence of sign calls against one device id, each with its data and
the outcome of its signer call, stopping at the first failed call. -/
def signSequence (r : Repo) (id : String) :
    List (String × List Nat) → List SignatureResponse × Repo
  | [] => ([], r)
  | (data, sig) :: rest =>
    match signTransaction r id data (some sig) with
    | (Except.ok resp, r2) =>
      let (outs, rf) := signSequence r2 id rest
      (resp :: outs, rf)
    | (Except.error _, r2) => ([], r2)

/-- One in-flight SignTransaction call in the interleaving model: the data
it signs and the signature bytes its (unlocked) cryptographic step will
produce. -/
structure ConcOp where
  data : String
  sigBytes : List Nat
deriving DecidableEq, Repr

/-- Progress of one in-flight call. `readDone` records the secured string
built by GetSecuredDataToSign; `committed` records the response the call
returns after IncrementCounter. -/
inductive OpPhase where
  | notStarted
  | readDone (securedData : String)
  | committed (resp : SignatureResponse)
deriving DecidableEq, Repr

/-- Shared device plus the progress of each in-flight call. -/
structure ConcState where
  device : Device
  phases : List OpPhase
deriving DecidableEq, Repr

/-- Atomic actions available to the scheduler. Each action is exactly one
mutex-protected critical section of the Go code: `readStep i` is call `i`
running GetSecuredDataToSign (device mutex held inside that method only),
`commitStep i` is call `i` running IncrementCounter after its unlocked
signing step. The Go code releases the device mutex between the two, so
the scheduler may run other calls' sections in between. -/
inductive ConcAction where
  | readStep (i : Nat)
  | commitStep (i : Nat)
deriving DecidableEq, Repr

/-- Effect of one atomic critical section on the shared state. Actions
that are not enabled (wrong phase, no such call) leave the state
unchanged. -/
def runAction (ops : List ConcOp) (s : ConcState) : ConcAction → ConcState
  | ConcAction.readStep i =>
    match s.phases.get? i, ops.get? i with
    | some OpPhase.notStarted, some op =>
      let (securedData, device2) := GetSecuredDataToSign s.device op.data
      { device := device2,
        phases := s.phases.set i (OpPhase.readDone securedData) }
    | _, _ => s
  | ConcAction.commitStep i =>
    match s.phases.get? i, ops.get? i with
    | some (OpPhase.readDone securedData), some op =>
      let signatureBase64 := base64EncodeBytes op.sigBytes
      { device := IncrementCounter s.device signatureBase64,
        phases := s.phases.set i (OpPhase.committed
          { Signature := signatureBase64, SignedData := securedData }) }
    | _, _ => s

/-- Run a schedule of critical sections. -/
def runSchedule (ops : List ConcOp) (s : ConcState) :
    List ConcAction → ConcState
  | [] => s
  | a :: rest => runSchedule ops (runAction ops s a) rest

/-- Initial state: the shared device, no call started. -/
def initConcState (d : Device) (ops : List ConcOp) : ConcState :=
  { device := d, phases := ops.map fun _ => OpPhase.notStarted }

/-- Chain states the running system can put a device into: it is built by
NewDevice and afterwards mutated only by IncrementCounter with the base64
of the signature bytes of a successful signer call. The index records the
committed signatures, most recent first. A successful RSA-PSS or ECDSA
signature is a nonempty byte string, hence the `sig ≠ []` side condition
on the commit step. -/
inductive ReachableH : List (List Nat) → Device → Prop where
  | created (id : String) (algorithm : SignatureAlgorithm) (label : String)
      (publicKey : PublicKeyVal) (privateKey : PrivateKeyVal) :
      ReachableH [] (NewDevice id algorithm label publicKey privateKey)
  | signed (h : List (List Nat)) (d : Device) (sig : List Nat) :
      ReachableH h d → sig ≠ [] →
      ReachableH (sig :: h) (IncrementCounter d (base64EncodeBytes sig))

/-- Concrete fresh RSA device used for evaluating the operations at the
concrete inputs named by the spec examples. -/
def sampleDevice : Device :=
  NewDevice "X" AlgorithmRSA "label1" (PublicKeyVal.rsa 1)
    (PrivateKeyVal.rsa 1)

/-! Helper lemmas. -/

theorem IncrementCounter_ID (d : Device) (s : String) :
    (IncrementCounter d s).ID = d.ID := rfl

theorem IncrementCounter_counter (d : Device) (s : String) :
    (IncrementCounter d s).SignatureCounter = d.SignatureCounter + 1 := rfl

theorem privateKeyLookupOk_IncrementCounter (d : Device) (s : String) :
    privateKeyLookupOk (IncrementCounter d s) = privateKeyLookupOk d := by
  simp [privateKeyLookupOk, IncrementCounter, GetRSAPrivateKey,
    GetECDSAPrivateKey]

theorem repoLookup_repoReplace (r : Repo) (d : Device)
    (h : (repoLookup r d.ID).isSome) :
    repoLookup (repoReplace r d) d.ID = some d := by
  induction r with
  | nil => simp [repoLookup] at h
  | cons p rest ih =>
    obtain ⟨k, v⟩ := p
    by_cases hk : k = d.ID
    · subst hk
      simp [repoReplace, repoLookup]
    · simp only [repoLookup, if_neg hk] at h
      simp [repoReplace, repoLookup, hk]
      exact ih h

theorem signTransaction_ok (r : Repo) (id data : String) (device : Device)
    (sig : List Nat) (hget : repoLookup r id = some device)
    (hid : device.ID = id) (hkey : privateKeyLookupOk device = true) :
    signTransaction r id data (some sig) =
      (Except.ok { Signature := base64EncodeBytes sig,
                   SignedData := (GetSecuredDataToSign device data).1 },
       repoReplace r (IncrementCounter device (base64EncodeBytes sig))) := by
  have hupd : (repoLookup r
      (IncrementCounter device (base64EncodeBytes sig)).ID).isSome := by
    rw [IncrementCounter_ID, hid, hget]
    rfl
  simp [signTransaction, repoGet, hget, hkey, repoUpdate, hupd,
    GetSecuredDataToSign]

theorem b64Char_mem_or_pad (n : Nat) :
    b64Char n ∈ base64Alphabet.toList ∨ b64Char n = '=' := by
  unfold b64Char
  by_cases h : n < base64Alphabet.toList.length
  · rw [List.getD_eq_getElem _ _ h]
    exact Or.inl (List.getElem_mem h)
  · exact Or.inr (List.getD_eq_default _ _ (Nat.le_of_not_lt h))

theorem underscore_ne_b64Char (n : Nat) : ('_' = b64Char n) = False := by
  have halpha : ∀ x ∈ base64Alphabet.toList, '_' ≠ x := by decide
  apply eq_false
  rcases b64Char_mem_or_pad n with h | h
  · exact halpha _ h
  · rw [h]; decide

theorem base64_no_underscore : ∀ l : List Nat,
    '_' ∉ (base64EncodeBytes l).data
  | [] => by simp [base64EncodeBytes]
  | [a] => by
      simp [base64EncodeBytes, String.mk, underscore_ne_b64Char]
  | [a, b] => by
      simp [base64EncodeBytes, String.mk, underscore_ne_b64Char]
  | a :: b :: c :: rest => by
      have ih := base64_no_underscore rest
      simp [base64EncodeBytes, String.mk, underscore_ne_b64Char] at ih ⊢
      exact ih

theorem base64_ne_empty (l : List Nat) (h : l ≠ []) :
    base64EncodeBytes l ≠ "" := by
  intro he
  have hd := congrArg String.data he
  match l with
  | [] => exact h rfl
  | [a] => simp [base64EncodeBytes, String.mk] at hd
  | [a, b] => simp [base64EncodeBytes, String.mk] at hd
  | a :: b :: c :: rest => simp [base64EncodeBytes, String.mk] at hd

theorem signSequence_spec (inputs : List (String × List Nat)) :
    ∀ (r : Repo) (id : String) (device : Device),
      repoLookup r id = some device → device.ID = id →
      privateKeyLookupOk device = true →
      ((signSequence r id inputs).1.length = inputs.length) ∧
      (∃ dfinal, repoLookup (signSequence r id inputs).2 id = some dfinal ∧
        dfinal.SignatureCounter = device.SignatureCounter + inputs.length) ∧
      (∀ (k : Nat) (hk : k < (signSequence r id inputs).1.length),
        ∃ tail, ((signSequence r id inputs).1.get ⟨k, hk⟩).SignedData =
          Nat.repr (device.SignatureCounter + k) ++ "_" ++ tail) := by
  induction inputs with
  | nil =>
    intro r id device hget _ _
    refine ⟨rfl, ⟨device, hget, by simp [signSequence]⟩, ?_⟩
    intro k hk
    simp [signSequence] at hk
  | cons input rest ih =>
    intro r id device hget hid hkey
    obtain ⟨data, sig⟩ := input
    have hstep := signTransaction_ok r id data device sig hget hid hkey
    set device2 := IncrementCounter device (base64EncodeBytes sig) with hdev2
    have hget2 : repoLookup (repoReplace r device2) id = some device2 := by
      have hsome : (repoLookup r device2.ID).isSome := by
        rw [hdev2, IncrementCounter_ID, hid, hget]; rfl
      have := repoLookup_repoReplace r device2 hsome
      rwa [hdev2, IncrementCounter_ID, hid] at this
    have hid2 : device2.ID = id := by rw [hdev2, IncrementCounter_ID, hid]
    have hkey2 : privateKeyLookupOk device2 = true := by
      rw [hdev2, privateKeyLookupOk_IncrementCounter]; exact hkey
    have hrec := ih (repoReplace r device2) id device2 hget2 hid2 hkey2
    have hseq : signSequence r id ((data, sig) :: rest) =
        ({ Signature := base64EncodeBytes sig,
           SignedData := (GetSecuredDataToSign device data).1 } ::
          (signSequence (repoReplace r device2) id rest).1,
         (signSequence (repoReplace r device2) id rest).2) := by
      simp [signSequence, hstep]
    rw [hseq]
    obtain ⟨hlen, ⟨dfinal, hdf, hdc⟩, hidx⟩ := hrec
    refine ⟨by simp [hlen], ⟨dfinal, hdf, ?_⟩, ?_⟩
    · rw [hdc, hdev2, IncrementCounter_counter]
      simp only [List.length_cons]
      omega
    · intro k hk
      match k with
      | 0 =>
        refine ⟨data ++ "_" ++ (if device.LastSignature = "" then
          base64String device.ID else device.LastSignature), ?_⟩
        simp [List.get, GetSecuredDataToSign, String.append_assoc,
          Nat.add_zero]
      | Nat.succ k2 =>
        have hk2 : k2 < (signSequence (repoReplace r device2) id rest).1.length := by
          simpa using hk
        obtain ⟨tail, htail⟩ := hidx k2 hk2
        refine ⟨tail, ?_⟩
        have heq : device2.SignatureCounter + k2 =
            device.SignatureCounter + (k2 + 1) := by
          rw [hdev2, IncrementCounter_counter]; omega
        simp only [List.get]
        rw [htail, heq]

/-- C10: GetSecuredDataToSign is read-only and deterministic: it returns
the device with every field unchanged, and a second call on the returned
device state with the same input, with no intervening IncrementCounter,
returns the same secured string. -/
theorem c10_get_secured_data_read_only :
    ∀ (d : Device) (dataToBeSigned : String),
      (GetSecuredDataToSign d dataToBeSigned).2 = d ∧
      (GetSecuredDataToSign (GetSecuredDataToSign d dataToBeSigned).2
          dataToBeSigned).1 =
        (GetSecuredDataToSign d dataToBeSigned).1 :=
  fun _ _ => ⟨rfl, rfl⟩

/-- C2: a successful sign on a device with counter c and last signature l
returns signedData equal to the decimal rendering of c, an underscore, the
input data, an underscore, then l when l is nonempty and base64 of the
device id when l is empty. -/
theorem c2_signed_data_format (r : Repo) (id data : String)
    (device : Device) (sig : List Nat)
    (hget : repoLookup r id = some device) (hid : device.ID = id)
    (hkey : privateKeyLookupOk device = true) :
    (signTransaction r id data (some sig)).1 =
      Except.ok { Signature := base64EncodeBytes sig,
                  SignedData := Nat.repr device.SignatureCounter ++ "_" ++
                    data ++ "_" ++
                    (if device.LastSignature = "" then
                      base64String device.ID
                    else device.LastSignature) } := by
  rw [signTransaction_ok r id data device sig hget hid hkey]
  rfl

/-- C2 witness: the first sign of "hello" on a fresh device with id "X"
returns signedData "0_hello_" followed by base64 of "X". -/
theorem c2_signed_data_format_witness :
    (signTransaction [("X", sampleDevice)] "X" "hello" (some [7])).1 =
      Except.ok { Signature := base64EncodeBytes [7],
                  SignedData := "0_hello_" ++ base64String "X" } :=
  (c2_signed_data_format [("X", sampleDevice)] "X" "hello" sampleDevice
    [7] (by decide) (by decide) (by decide)).trans rfl

/-- C5: when the cryptographic signing step fails, SignTransaction reports
SigningFailure and the repository, hence the device chain state, is
exactly as before the attempt: a retry observes the same device. -/
theorem c5_sign_failure_preserves_state (r : Repo) (id data : String)
    (device : Device) (hget : repoLookup r id = some device)
    (hkey : privateKeyLookupOk device = true) :
    signTransaction r id data none =
      (Except.error ApiError.signingFailure, r) ∧
    repoLookup (signTransaction r id data none).2 id = some device := by
  have h1 : signTransaction r id data none =
      (Except.error ApiError.signingFailure, r) := by
    simp [signTransaction, repoGet, hget, hkey, GetSecuredDataToSign]
  exact ⟨h1, by rw [h1]; exact hget⟩

/-- C5 witness at a concrete device and store. -/
theorem c5_sign_failure_preserves_state_witness :
    signTransaction [("X", sampleDevice)] "X" "hello" none =
      (Except.error ApiError.signingFailure, [("X", sampleDevice)]) ∧
    repoLookup (signTransaction [("X", sampleDevice)] "X" "hello" none).2
      "X" = some sampleDevice :=
  c5_sign_failure_preserves_state [("X", sampleDevice)] "X" "hello"
    sampleDevice (by decide) (by decide)

/-- C7: the store's Create fails with AlreadyExists exactly when the id is
already mapped and stores the device otherwise; Get and Update fail with
NotFound exactly when the id is absent; CreateDevice with a duplicate
explicit id fails with AlreadyExists; GetDevice and SignTransaction on an
unknown id fail with NotFound. -/
theorem c7_store_contract :
    (∀ (r : Repo) (device : Device),
      (repoCreate r device = Except.error StoreError.deviceAlreadyExists ↔
        (repoLookup r device.ID).isSome = true) ∧
      ((repoLookup r device.ID).isSome = false →
        repoCreate r device = Except.ok ((device.ID, device) :: r))) ∧
    (∀ (r : Repo) (id : String),
      repoGet r id = Except.error StoreError.deviceNotFound ↔
        repoLookup r id = none) ∧
    (∀ (r : Repo) (device : Device),
      repoUpdate r device = Except.error StoreError.deviceNotFound ↔
        repoLookup r device.ID = none) ∧
    (∀ (r : Repo) (reqID algorithm label freshID : String)
       (pair : PublicKeyVal × PrivateKeyVal),
      (repoLookup r reqID).isSome = true → reqID ≠ "" →
      (algorithm = AlgorithmRSA ∨ algorithm = AlgorithmECDSA) →
      createDevice r reqID algorithm label freshID (some pair) =
        Except.error ApiError.alreadyExists) ∧
    (∀ (r : Repo) (id : String), repoLookup r id = none →
      getDevice r id = Except.error ApiError.notFound) ∧
    (∀ (r : Repo) (id data : String) (signOutcome : Option (List Nat)),
      repoLookup r id = none →
      signTransaction r id data signOutcome =
        (Except.error ApiError.notFound, r)) := by
  refine ⟨?_, ?_, ?_, ?_, ?_, ?_⟩
  · intro r device
    constructor
    · by_cases h : (repoLookup r device.ID).isSome <;>
        simp [repoCreate, h]
    · intro h
      simp [repoCreate, h]
  · intro r id
    cases hl : repoLookup r id <;> simp [repoGet, hl]
  · intro r device
    cases hl : repoLookup r device.ID <;> simp [repoUpdate, hl]
  · intro r reqID algorithm label freshID pair hdup hne halg
    obtain ⟨pub, priv⟩ := pair
    have hvalid : ¬(algorithm ≠ AlgorithmRSA ∧ algorithm ≠ AlgorithmECDSA) := by
      rcases halg with h | h <;> simp [h]
    have hii : (if reqID = "" then freshID else reqID) = reqID :=
      if_neg hne
    simp only [createDevice, if_neg hvalid, hii]
    have hcre : repoCreate r (NewDevice reqID algorithm label pub priv) =
        Except.error StoreError.deviceAlreadyExists := by
      simp [repoCreate, NewDevice, hdup]
    rw [hcre]
  · intro r id hl
    simp [getDevice, repoGet, hl]
  · intro r id data signOutcome hl
    simp [signTransaction, repoGet, hl]

/-- C7 witness at a concrete store holding the sample device. -/
theorem c7_store_contract_witness :
    (repoCreate [("X", sampleDevice)] sampleDevice =
      Except.error StoreError.deviceAlreadyExists) ∧
    (createDevice [("X", sampleDevice)] "X" AlgorithmRSA "lbl" "fresh"
      (some (PublicKeyVal.rsa 2, PrivateKeyVal.rsa 2)) =
      Except.error ApiError.alreadyExists) ∧
    (getDevice [] "Y" = Except.error ApiError.notFound) ∧
    (signTransaction [] "Y" "d" (some [1]) =
      (Except.error ApiError.notFound, [])) :=
  ⟨(c7_store_contract.1 [("X", sampleDevice)] sampleDevice).1.mpr
      (by decide),
   c7_store_contract.2.2.2.1 [("X", sampleDevice)] "X" AlgorithmRSA "lbl"
      "fresh" (PublicKeyVal.rsa 2, PrivateKeyVal.rsa 2) (by decide)
      (by decide) (Or.inl rfl),
   c7_store_contract.2.2.2.2.1 [] "Y" rfl,
   c7_store_contract.2.2.2.2.2 [] "Y" "d" (some [1]) rfl⟩

/-- C8: a successful SignTransaction changes only the signature counter
and the last signature of the stored device: id, algorithm, label, public
key and private key are unchanged, the counter grows by exactly one and
the last signature becomes the returned signature. -/
theorem c8_sign_frame (r : Repo) (id data : String) (device : Device)
    (sig : List Nat) (hget : repoLookup r id = some device)
    (hid : device.ID = id) (hkey : privateKeyLookupOk device = true) :
    ∀ (resp : SignatureResponse) (r2 : Repo),
      signTransaction r id data (some sig) = (Except.ok resp, r2) →
      ∃ device2, repoLookup r2 id = some device2 ∧
        device2.ID = device.ID ∧
        device2.Algorithm = device.Algorithm ∧
        device2.Label = device.Label ∧
        device2.PublicKey = device.PublicKey ∧
        device2.PrivateKey = device.PrivateKey ∧
        device2.SignatureCounter = device.SignatureCounter + 1 ∧
        device2.LastSignature = resp.Signature := by
  intro resp r2 heq
  have h := (signTransaction_ok r id data device sig hget hid hkey).symm.trans heq
  have hr2 : r2 = repoReplace r (IncrementCounter device (base64EncodeBytes sig)) :=
    (congrArg Prod.snd h).symm
  have hresp : resp.Signature = base64EncodeBytes sig := by
    have := congrArg Prod.fst h
    simp only [Except.ok.injEq] at this
    rw [← this]
  refine ⟨IncrementCounter device (base64EncodeBytes sig), ?_, rfl, rfl,
    rfl, rfl, rfl, rfl, hresp.symm⟩
  rw [hr2]
  have hsome : (repoLookup r
      (IncrementCounter device (base64EncodeBytes sig)).ID).isSome := by
    rw [IncrementCounter_ID, hid, hget]; rfl
  have := repoLookup_repoReplace r
    (IncrementCounter device (base64EncodeBytes sig)) hsome
  rwa [IncrementCounter_ID, hid] at this

/-- C8 witness at a concrete device and store. -/
theorem c8_sign_frame_witness :
    ∃ device2,
      repoLookup (signTransaction [("X", sampleDevice)] "X" "hello"
        (some [7])).2 "X" = some device2 ∧
      device2.ID = sampleDevice.ID ∧
      device2.Algorithm = sampleDevice.Algorithm ∧
      device2.Label = sampleDevice.Label ∧
      device2.PublicKey = sampleDevice.PublicKey ∧
      device2.PrivateKey = sampleDevice.PrivateKey ∧
      device2.SignatureCounter = sampleDevice.SignatureCounter + 1 ∧
      device2.LastSignature = base64EncodeBytes [7] :=
  c8_sign_frame [("X", sampleDevice)] "X" "hello" sampleDevice [7]
    (by decide) (by decide) (by decide)
    { Signature := base64EncodeBytes [7],
      SignedData := (GetSecuredDataToSign sampleDevice "hello").1 }
    (repoReplace [("X", sampleDevice)]
      (IncrementCounter sampleDevice (base64EncodeBytes [7]))) rfl

/-- C9: the device views returned by CreateDevice, GetDevice and
ListDevices consist of exactly id, algorithm, label and signature counter
and carry no key material: two devices that differ only in their keys
yield identical views. -/
theorem c9_views_hide_keys :
    (∀ d1 d2 : Device, d1.ID = d2.ID → d1.Algorithm = d2.Algorithm →
      d1.Label = d2.Label → d1.SignatureCounter = d2.SignatureCounter →
      deviceView d1 = deviceView d2) ∧
    (∀ (r : Repo) (id : String) (device : Device),
      repoLookup r id = some device →
      getDevice r id = Except.ok (deviceView device)) ∧
    (∀ r : Repo, listDevices r = (repoList r).map deviceView) ∧
    (∀ (r : Repo) (reqID algorithm label freshID : String)
       (pub : PublicKeyVal) (priv : PrivateKeyVal)
       (view : DeviceView) (r2 : Repo),
      createDevice r reqID algorithm label freshID (some (pub, priv)) =
        Except.ok (view, r2) →
      ∃ deviceID,
        view = deviceView (NewDevice deviceID algorithm label pub priv)) := by
  refine ⟨?_, ?_, ?_, ?_⟩
  · intro d1 d2 h1 h2 h3 h4
    simp [deviceView, h1, h2, h3, h4]
  · intro r id device hget
    simp [getDevice, repoGet, hget]
  · intro r
    rfl
  · intro r reqID algorithm label freshID pub priv view r2 hok
    by_cases hvalid : algorithm ≠ AlgorithmRSA ∧ algorithm ≠ AlgorithmECDSA
    · simp [createDevice, hvalid] at hok
    · refine ⟨if reqID = "" then freshID else reqID, ?_⟩
      simp only [createDevice, if_neg hvalid] at hok
      cases hcre : repoCreate r (NewDevice
          (if reqID = "" then freshID else reqID) algorithm label pub priv) with
      | error e => rw [hcre] at hok; simp at hok
      | ok r3 =>
        rw [hcre] at hok
        simp only [Except.ok.injEq, Prod.mk.injEq] at hok
        exact hok.1.symm

/-- C9 witness: two stored devices that differ only in key material
produce equal views, and GetDevice returns exactly the view fields. -/
theorem c9_views_hide_keys_witness :
    deviceView (NewDevice "X" AlgorithmRSA "lbl" (PublicKeyVal.rsa 1)
        (PrivateKeyVal.rsa 1)) =
      deviceView (NewDevice "X" AlgorithmRSA "lbl" (PublicKeyVal.rsa 9)
        (PrivateKeyVal.rsa 9)) ∧
    getDevice [("X", sampleDevice)] "X" =
      Except.ok (deviceView sampleDevice) :=
  ⟨c9_views_hide_keys.1 _ _ rfl rfl rfl rfl,
   c9_views_hide_keys.2.1 [("X", sampleDevice)] "X" sampleDevice
     (by decide)⟩

/-- C3: starting from a fresh device, n strictly sequential successful
SignTransaction calls leave the signature counter at n, the k-th returned
signedData (0-indexed) embeds counter value k (its text is the decimal
rendering of k, an underscore, then the rest), with no value skipped and
none repeated, and each IncrementCounter commit grows the counter by
exactly one, so the counter never decreases. -/
theorem c3_sequential_signs (r : Repo) (id : String) (device : Device)
    (inputs : List (String × List Nat))
    (hget : repoLookup r id = some device) (hid : device.ID = id)
    (hkey : privateKeyLookupOk device = true)
    (hfresh : device.SignatureCounter = 0) :
    ((signSequence r id inputs).1.length = inputs.length) ∧
    (∃ dfinal, repoLookup (signSequence r id inputs).2 id = some dfinal ∧
      dfinal.SignatureCounter = inputs.length) ∧
    (∀ (k : Nat) (hk : k < (signSequence r id inputs).1.length),
      ∃ tail, ((signSequence r id inputs).1.get ⟨k, hk⟩).SignedData =
        Nat.repr k ++ "_" ++ tail) ∧
    (∀ (d : Device) (s : String),
      (IncrementCounter d s).SignatureCounter = d.SignatureCounter + 1) := by
  obtain ⟨hlen, ⟨dfinal, hdf, hdc⟩, hidx⟩ :=
    signSequence_spec inputs r id device hget hid hkey
  refine ⟨hlen, ⟨dfinal, hdf, by rw [hdc, hfresh, Nat.zero_add]⟩, ?_, ?_⟩
  · intro k hk
    obtain ⟨tail, htail⟩ := hidx k hk
    rw [hfresh, Nat.zero_add] at htail
    exact ⟨tail, htail⟩
  · intro d s
    exact IncrementCounter_counter d s

/-- C3 witness: two sequential signs on the fresh sample device. -/
theorem c3_sequential_signs_witness :
    ((signSequence [("X", sampleDevice)] "X" [("a", [1]), ("b", [2])]).1.length = 2) ∧
    (∃ dfinal, repoLookup
        (signSequence [("X", sampleDevice)] "X" [("a", [1]), ("b", [2])]).2
        "X" = some dfinal ∧ dfinal.SignatureCounter = 2) ∧
    (∀ (k : Nat) (hk : k <
        (signSequence [("X", sampleDevice)] "X" [("a", [1]), ("b", [2])]).1.length),
      ∃ tail, ((signSequence [("X", sampleDevice)] "X"
          [("a", [1]), ("b", [2])]).1.get ⟨k, hk⟩).SignedData =
        Nat.repr k ++ "_" ++ tail) ∧
    (∀ (d : Device) (s : String),
      (IncrementCounter d s).SignatureCounter = d.SignatureCounter + 1) :=
  c3_sequential_signs [("X", sampleDevice)] "X" sampleDevice
    [("a", [1]), ("b", [2])] (by decide) (by decide) (by decide) (by decide)

/-- C4: for two consecutive successful signs on the same device, the later
signedData ends with the signature string returned by the earlier sign as
its trailing underscore-delimited segment: the signedData is some prefix,
an underscore, then exactly that signature, and the signature itself
contains no underscore. The earlier signature bytes are nonempty, as every
successful RSA-PSS or ECDSA signature is. -/
theorem c4_chain_links (r : Repo) (id data1 data2 : String)
    (device : Device) (sig1 sig2 : List Nat)
    (hget : repoLookup r id = some device) (hid : device.ID = id)
    (hkey : privateKeyLookupOk device = true) (hsig1 : sig1 ≠ [])
    (resp1 resp2 : SignatureResponse) (r2 r3 : Repo)
    (e1 : signTransaction r id data1 (some sig1) = (Except.ok resp1, r2))
    (e2 : signTransaction r2 id data2 (some sig2) = (Except.ok resp2, r3)) :
    ∃ p, resp2.SignedData = p ++ "_" ++ resp1.Signature ∧
      '_' ∉ resp1.Signature.data := by
  have h1 := (signTransaction_ok r id data1 device sig1 hget hid hkey).symm.trans e1
  have hresp1 : resp1.Signature = base64EncodeBytes sig1 := by
    have := congrArg Prod.fst h1
    simp only [Except.ok.injEq] at this
    rw [← this]
  have hr2 : r2 = repoReplace r
      (IncrementCounter device (base64EncodeBytes sig1)) :=
    (congrArg Prod.snd h1).symm
  set device2 := IncrementCounter device (base64EncodeBytes sig1) with hdev2
  have hget2 : repoLookup r2 id = some device2 := by
    rw [hr2]
    have hsome : (repoLookup r device2.ID).isSome := by
      rw [hdev2, IncrementCounter_ID, hid, hget]; rfl
    have := repoLookup_repoReplace r device2 hsome
    rwa [hdev2, IncrementCounter_ID, hid] at this
  have hid2 : device2.ID = id := by rw [hdev2, IncrementCounter_ID, hid]
  have hkey2 : privateKeyLookupOk device2 = true := by
    rw [hdev2, privateKeyLookupOk_IncrementCounter]; exact hkey
  have h2 := (signTransaction_ok r2 id data2 device2 sig2 hget2 hid2
    hkey2).symm.trans e2
  have hresp2 : resp2.SignedData = (GetSecuredDataToSign device2 data2).1 := by
    have := congrArg Prod.fst h2
    simp only [Except.ok.injEq] at this
    rw [← this]
  have hlast : device2.LastSignature = base64EncodeBytes sig1 := by
    rw [hdev2]; rfl
  have hne : device2.LastSignature ≠ "" := by
    rw [hlast]; exact base64_ne_empty sig1 hsig1
  refine ⟨Nat.repr device2.SignatureCounter ++ "_" ++ data2, ?_, ?_⟩
  · rw [hresp2, hresp1]
    simp only [GetSecuredDataToSign, if_neg hne]
    rw [hlast]
  · rw [hresp1]
    exact base64_no_underscore sig1

/-- C4 witness: two concrete consecutive signs on the sample device. -/
theorem c4_chain_links_witness :
    ∃ p, ({ Signature := "CQ==", SignedData := "1_b_Bw==" } :
        SignatureResponse).SignedData = p ++ "_" ++
      ({ Signature := "Bw==", SignedData := "0_a_WA==" } :
        SignatureResponse).Signature ∧
      '_' ∉ ({ Signature := "Bw==", SignedData := "0_a_WA==" } :
        SignatureResponse).Signature.data :=
  c4_chain_links [("X", sampleDevice)] "X" "a" "b" sampleDevice [7] [9]
    (by decide) (by decide) (by decide) (by decide)
    { Signature := "Bw==", SignedData := "0_a_WA==" }
    { Signature := "CQ==", SignedData := "1_b_Bw==" }
    (signTransaction [("X", sampleDevice)] "X" "a" (some [7])).2
    (signTransaction
      (signTransaction [("X", sampleDevice)] "X" "a" (some [7])).2
      "X" "b" (some [9])).2
    rfl rfl

/-- C6: over every reachable device chain state, lastSignature is empty
exactly when the counter is 0; a newly created device has counter 0 and
empty lastSignature; the counter equals the number of committed
signatures and lastSignature is the base64 of the most recently committed
signature bytes. -/
theorem c6_chain_state_invariant :
    (∀ (h : List (List Nat)) (d : Device), ReachableH h d →
      d.SignatureCounter = h.length ∧
      (d.LastSignature = "" ↔ d.SignatureCounter = 0) ∧
      (h = [] → d.LastSignature = "") ∧
      (∀ sig rest, h = sig :: rest →
        d.LastSignature = base64EncodeBytes sig)) ∧
    (∀ (id : String) (algorithm : SignatureAlgorithm) (label : String)
       (pub : PublicKeyVal) (priv : PrivateKeyVal),
      (NewDevice id algorithm label pub priv).SignatureCounter = 0 ∧
      (NewDevice id algorithm label pub priv).LastSignature = "") := by
  constructor
  · intro h d hr
    induction hr with
    | created id algorithm label pub priv =>
      refine ⟨rfl, by simp [NewDevice], fun _ => rfl, ?_⟩
      intro sig rest hcontr
      exact absurd hcontr (List.cons_ne_nil sig rest).symm
    | signed h0 d0 sig hr0 hne ih =>
      have hcnt : (IncrementCounter d0 (base64EncodeBytes sig)).SignatureCounter
          = d0.SignatureCounter + 1 := IncrementCounter_counter d0 _
      have hlast : (IncrementCounter d0 (base64EncodeBytes sig)).LastSignature
          = base64EncodeBytes sig := rfl
      refine ⟨?_, ?_, ?_, ?_⟩
      · rw [hcnt, ih.1, List.length_cons]
      · rw [hcnt, hlast]
        constructor
        · intro hemp
          exact absurd hemp (base64_ne_empty sig hne)
        · intro hzero
          exact absurd hzero (Nat.succ_ne_zero _)
      · intro hcontr
        exact absurd hcontr (List.cons_ne_nil sig h0)
      · intro sig2 rest2 heq
        rw [hlast]
        injection heq with h1 _
        rw [h1]
  · intro id algorithm label pub priv
    exact ⟨rfl, rfl⟩

/-- C6 witness: a concrete reachable state after one committed signature. -/
theorem c6_chain_state_invariant_witness :
    (IncrementCounter sampleDevice
        (base64EncodeBytes [7])).SignatureCounter = [[7]].length ∧
    ((IncrementCounter sampleDevice (base64EncodeBytes [7])).LastSignature
        = "" ↔
      (IncrementCounter sampleDevice
        (base64EncodeBytes [7])).SignatureCounter = 0) ∧
    (([[7]] : List (List Nat)) = [] →
      (IncrementCounter sampleDevice (base64EncodeBytes [7])).LastSignature
        = "") ∧
    (∀ sig rest, ([[7]] : List (List Nat)) = sig :: rest →
      (IncrementCounter sampleDevice (base64EncodeBytes [7])).LastSignature
        = base64EncodeBytes sig) :=
  c6_chain_state_invariant.1 [[7]]
    (IncrementCounter sampleDevice (base64EncodeBytes [7]))
    (ReachableH.signed [] sampleDevice [7]
      (ReachableH.created "X" AlgorithmRSA "label1" (PublicKeyVal.rsa 1)
        (PrivateKeyVal.rsa 1))
      (by decide))

/-- C1: the claim that all m concurrent SignTransaction calls on one
device return pairwise distinct signedData and that the read-sign-commit
sequence is serialized per device fails on the code: the device mutex is
released between GetSecuredDataToSign and IncrementCounter, so the
schedule that runs both reads before either commit is permitted. With
m = 2 calls on the fresh sample device, both calls complete (both phases
are committed), the final counter is m = 2, yet both returned signedData
embed counter value 0 and are equal, not pairwise distinct. -/
theorem c1_interleaved_signs_share_counter :
    (runSchedule [⟨"hello", [1]⟩, ⟨"hello", [2]⟩]
      (initConcState sampleDevice [⟨"hello", [1]⟩, ⟨"hello", [2]⟩])
      [ConcAction.readStep 0, ConcAction.readStep 1,
       ConcAction.commitStep 0, ConcAction.commitStep 1]).device.SignatureCounter
      = 2 ∧
    (runSchedule [⟨"hello", [1]⟩, ⟨"hello", [2]⟩]
      (initConcState sampleDevice [⟨"hello", [1]⟩, ⟨"hello", [2]⟩])
      [ConcAction.readStep 0, ConcAction.readStep 1,
       ConcAction.commitStep 0, ConcAction.commitStep 1]).phases =
      [OpPhase.committed { Signature := "AQ==", SignedData := "0_hello_WA==" },
       OpPhase.committed { Signature := "Ag==", SignedData := "0_hello_WA==" }] ∧
    ({ Signature := "AQ==", SignedData := "0_hello_WA==" } :
      SignatureResponse).SignedData =
      ({ Signature := "Ag==", SignedData := "0_hello_WA==" } :
        SignatureResponse).SignedData := by
  refine ⟨rfl, rfl, rfl⟩

end SigningService


